import Mathlib

/-!
Verification model of the stub-index code-intelligence library: the
declaration-record store, the PSI structure-tree model, and the tree
query/transform/visitor engines. Pure functions of the source are
translated into executable Lean definitions; pointer-based tree mutation
is modelled by an explicit index-addressed heap; the double `0.5 / 0.3 / 0.2`
similarity weights are modelled as exact rationals.
-/

namespace StubIndexModel

/-- Node kind enumeration, one constructor per enumerator of the source
enum class PSINodeType. -/
inductive PSINodeType where
  | FILE | NAMESPACE | CLASS | STRUCT | FUNCTION | VARIABLE | ENUM | TYPEDEF
  | COMPOUND_STATEMENT | IF_STATEMENT | FOR_STATEMENT | WHILE_STATEMENT
  | RETURN_STATEMENT | EXPRESSION_STATEMENT | DECLARATION_STATEMENT
  | BINARY_EXPRESSION | UNARY_EXPRESSION | CALL_EXPRESSION | MEMBER_EXPRESSION
  | LITERAL_EXPRESSION | IDENTIFIER_EXPRESSION
  | BUILTIN_TYPE | QUALIFIED_TYPE | POINTER_TYPE | REFERENCE_TYPE | ARRAY_TYPE
  | COMMENT | PREPROCESSOR_DIRECTIVE | UNKNOWN
deriving DecidableEq, Repr

/-- Source location record (struct SourceLocation). -/
structure SourceLocation where
  file_path : String
  line : Int
  column : Int
deriving DecidableEq, Repr

/-- The dynamic C++ class of a node: the base class PSINode itself, or one of
the five subclasses (PSIFileNode, PSINamespaceNode, PSIClassNode,
PSIFunctionNode, PSIVariableNode). The dynamic class decides virtual
dispatch in accept; it is distinct from the kind field. -/
inductive NodeVariant where
  | base | fileV | namespaceV | classV | functionV | variableV
deriving DecidableEq, Repr

/-- A PSI structure-tree node: kind, display text, location, semantic-info
bag (string to string association list, first binding wins), dynamic class,
and the exclusively owned ordered children. Subclass payload fields
(parameter lists, modifiers, return types) are omitted: no operation
modelled here reads them. -/
inductive PSINode where
  | node (ty : PSINodeType) (text : String) (loc : SourceLocation)
      (sem : List (String × String)) (variant : NodeVariant)
      (children : List PSINode) : PSINode

/-- Kind of a node (getType). -/
def PSINode.type : PSINode → PSINodeType
  | .node t _ _ _ _ _ => t

/-- Display text of a node (getText). -/
def PSINode.text : PSINode → String
  | .node _ x _ _ _ _ => x

/-- Location of a node (getLocation). -/
def PSINode.loc : PSINode → SourceLocation
  | .node _ _ l _ _ _ => l

/-- Semantic-info association list of a node. -/
def PSINode.sem : PSINode → List (String × String)
  | .node _ _ _ s _ _ => s

/-- Dynamic class of a node. -/
def PSINode.variant : PSINode → NodeVariant
  | .node _ _ _ _ v _ => v

/-- Children list of a node (getChildren). -/
def PSINode.children : PSINode → List PSINode
  | .node _ _ _ _ _ cs => cs

mutual
/-- calculateSubtreeSize on a non-null node: one for the node plus the
sizes of the subtrees of its children. -/
def subtreeSizeN : PSINode → Nat
  | .node _ _ _ _ _ cs => 1 + subtreeSizeNList cs

/-- Sum of subtree sizes over a children list. -/
def subtreeSizeNList : List PSINode → Nat
  | [] => 0
  | c :: cs => subtreeSizeN c + subtreeSizeNList cs
end

/-- PSITreeOperations::calculateSubtreeSize, with the null check: a null
node has size 0. -/
def calculateSubtreeSize : Option PSINode → Nat
  | none => 0
  | some n => subtreeSizeN n

mutual
/-- PSITreeOperations::calculateDepth on a non-null node: 1 for a childless
node, otherwise the maximum child depth plus one (max accumulator starts
at 0). -/
def calculateDepthN : PSINode → Int
  | .node _ _ _ _ _ cs =>
    match cs with
    | [] => 1
    | c :: rest => calcDepthMax (c :: rest) + 1

/-- Running maximum of calculateDepth over a children list, starting at 0. -/
def calcDepthMax : List PSINode → Int
  | [] => 0
  | c :: cs => max (calculateDepthN c) (calcDepthMax cs)
end

/-- PSITreeOperations::calculateDepth including its null branch: the source
returns 1 (not 0) for a null node, because the null check and the
childless check share one early return. -/
def calculateDepth : Option PSINode → Int
  | none => 1
  | some n => calculateDepthN n

mutual
/-- Pre-order node sequence of a subtree: the node, then the pre-order
sequences of its children in order. -/
def preorderNodes : PSINode → List PSINode
  | .node t x l s v cs => .node t x l s v cs :: preorderNodesList cs

/-- Concatenated pre-order sequences of a list of subtrees. -/
def preorderNodesList : List PSINode → List PSINode
  | [] => []
  | c :: cs => preorderNodes c ++ preorderNodesList cs
end

mutual
/-- Pre-order sequence of (kind, text) pairs of a subtree. -/
def preorderKT : PSINode → List (PSINodeType × String)
  | .node t x _ _ _ cs => (t, x) :: preorderKTList cs

/-- Concatenated (kind, text) pre-order sequences of a list of subtrees. -/
def preorderKTList : List PSINode → List (PSINodeType × String)
  | [] => []
  | c :: cs => preorderKT c ++ preorderKTList cs
end

mutual
/-- PSITreeOperations::collectDescendants on a non-null node: for each
child, push the child and recurse into it; the node itself is excluded. -/
def descendantsN : PSINode → List PSINode
  | .node _ _ _ _ _ cs => descendantsNList cs

/-- Descendant collection over a children list: each child followed by its
own descendants. -/
def descendantsNList : List PSINode → List PSINode
  | [] => []
  | c :: cs => c :: descendantsN c ++ descendantsNList cs
end

/-- PSITreeOperations::getAllDescendants with the null check. -/
def getAllDescendants : Option PSINode → List PSINode
  | none => []
  | some n => descendantsN n

mutual
/-- PSITreeOperations::collectNodesByCondition on a non-null node:
pre-order collection of the nodes satisfying the condition. -/
def collectByCond (cond : PSINode → Bool) : PSINode → List PSINode
  | .node t x l s v cs =>
    (if cond (.node t x l s v cs) then [PSINode.node t x l s v cs] else [])
      ++ collectByCondList cond cs

/-- Condition-based collection over a children list. -/
def collectByCondList (cond : PSINode → Bool) : List PSINode → List PSINode
  | [] => []
  | c :: cs => collectByCond cond c ++ collectByCondList cond cs
end

/-- PSITreeOperations::findNodesByCondition with the null check. -/
def findNodesByCondition (root : Option PSINode) (cond : PSINode → Bool) :
    List PSINode :=
  match root with
  | none => []
  | some r => collectByCond cond r

/-- PSITreeOperations::findAllNodes: pre-order collection of the nodes of a
given kind (collectNodesByType, which checks null). -/
def findAllNodes (root : Option PSINode) (ty : PSINodeType) : List PSINode :=
  findNodesByCondition root (fun n => decide (n.type = ty))

mutual
/-- PSITreeOperations::collectLeafNodes on a non-null node: childless nodes
in pre-order. -/
def leafNodesN : PSINode → List PSINode
  | .node t x l s v cs =>
    match cs with
    | [] => [PSINode.node t x l s v []]
    | c :: rest => leafNodesNList (c :: rest)

/-- Leaf collection over a children list. -/
def leafNodesNList : List PSINode → List PSINode
  | [] => []
  | c :: cs => leafNodesN c ++ leafNodesNList cs
end

/-- PSITreeOperations::getLeafNodes with the null check. -/
def getLeafNodes : Option PSINode → List PSINode
  | none => []
  | some n => leafNodesN n

mutual
/-- PSITreeOperations::collectBranchNodes on a non-null node: nodes with at
least one child, in pre-order. -/
def branchNodesN : PSINode → List PSINode
  | .node t x l s v cs =>
    match cs with
    | [] => []
    | c :: rest => PSINode.node t x l s v (c :: rest) :: branchNodesNList (c :: rest)

/-- Branch collection over a children list. -/
def branchNodesNList : List PSINode → List PSINode
  | [] => []
  | c :: cs => branchNodesN c ++ branchNodesNList cs
end

/-- PSITreeOperations::getBranchNodes with the null check. -/
def getBranchNodes : Option PSINode → List PSINode
  | none => []
  | some n => branchNodesN n

mutual
/-- PSITreeOperations::cloneSubtree on a non-null node: a fresh base-class
node carrying only (kind, text, location) — semantic info is not copied and
the dynamic class degrades to the generic base — with recursively cloned
children. -/
def cloneSubtreeN : PSINode → PSINode
  | .node t x l _ _ cs => .node t x l [] .base (cloneSubtreeNList cs)

/-- Clone of a children list. -/
def cloneSubtreeNList : List PSINode → List PSINode
  | [] => []
  | c :: cs => cloneSubtreeN c :: cloneSubtreeNList cs
end

/-- PSITreeOperations::cloneSubtree with the null check. -/
def cloneSubtree : Option PSINode → Option PSINode
  | none => none
  | some n => some (cloneSubtreeN n)

/-- Round a rational to the nearest integer with ties to even, the action
of IEEE 754 round-to-nearest-even on a scaled significand. -/
def roundHalfEven (x : ℚ) : Int :=
  if x - (⌊x⌋ : ℚ) < 1/2 then ⌊x⌋
  else if (1/2 : ℚ) < x - (⌊x⌋ : ℚ) then ⌊x⌋ + 1
  else if ⌊x⌋ % 2 = 0 then ⌊x⌋ else ⌊x⌋ + 1

/-- Binary64 (IEEE 754 double) rounding of an exact rational:
round-to-nearest-even at 53 significand bits. The exponent range of the
format (overflow and subnormals) is not modelled, as no value reached by
the similarity computation comes near it. Every double arithmetic
operation of the source rounds its exact result through this function. -/
def fl (q : ℚ) : ℚ :=
  if q = 0 then 0
  else
    (if q < 0 then (-1 : ℚ) else 1)
      * (roundHalfEven (|q| / (2 : ℚ) ^ (Int.log 2 |q| - 52)) : ℚ)
      * (2 : ℚ) ^ (Int.log 2 |q| - 52)

/-- The double constant written 0.3 in the source: the binary64 value
nearest to 3/10 (the literal converts with round-to-nearest-even). -/
def c03 : ℚ := fl (3/10)

/-- The double constant written 0.2 in the source: the binary64 value
nearest to 1/5. -/
def c02 : ℚ := fl (1/5)

mutual
/-- PSITreeOperations::calculateNodeSimilarity on two non-null nodes, each
double operation rounded to binary64 in source order: 0 when kinds differ;
otherwise similarity starts at 0.0, gains 0.5 for equal display texts and
then 0.3 for equal child counts (each += rounded; 0.5 is exactly
representable, 0.3 is the constant c03); when min(count1, count2) > 0 the
accumulated child-pair similarity is divided by the pair count (rounded),
multiplied by 0.2 (rounded) and added to the running similarity
(rounded). -/
def calcNodeSim : PSINode → PSINode → ℚ
  | .node t1 x1 _ _ _ cs1, .node t2 x2 _ _ _ cs2 =>
    if t1 = t2 then
      let s1 : ℚ := if x1 = x2 then fl (0 + 1/2) else 0
      let s2 : ℚ := if cs1.length = cs2.length then fl (s1 + c03) else s1
      let m := min cs1.length cs2.length
      if m = 0 then s2
      else fl (s2 + fl (fl (childSimSum cs1 cs2 0 / (m : ℚ)) * c02))
    else 0

/-- The child loop of calculateNodeSimilarity: child_similarity starts at
0.0 and accumulates the recursive similarity of index-aligned child pairs
left to right over the first min(count1, count2) pairs, each += rounded to
binary64. -/
def childSimSum : List PSINode → List PSINode → ℚ → ℚ
  | a :: as, b :: bs, acc => childSimSum as bs (fl (acc + calcNodeSim a b))
  | _, _, acc => acc
end

/-- PSITreeOperations::calculateSimilarity with binary64 rounding: 0 when
either tree is null or has size 0; otherwise the int difference of the
subtree sizes converts to double (rounded), its absolute value is divided
by the double conversion of max(size1, size2) (rounded), the size score is
1.0 minus that quotient (rounded), and the result is the node score plus
the size score (rounded) divided by 2.0 (rounded). -/
def calculateSimilarity : Option PSINode → Option PSINode → ℚ
  | some t1, some t2 =>
    let size1 := subtreeSizeN t1
    let size2 := subtreeSizeN t2
    if size1 = 0 ∨ size2 = 0 then 0
    else
      let d := fl ((size1 : ℚ) - (size2 : ℚ))
      let s := fl (1 - fl (|d| / fl ((max size1 size2 : Nat) : ℚ)))
      fl (fl (calcNodeSim t1 t2 + s) / 2)
  | _, _ => 0

/-- PSITreeOperations::findDifferences: on two non-null trees, the proper
descendants of the first tree (collectDescendants excludes the tree node
itself) that have no (kind, text)-equal proper descendant of the second
tree; empty when either tree is null. -/
def findDifferences : Option PSINode → Option PSINode → List PSINode
  | some t1, some t2 =>
    (descendantsN t1).filter (fun n1 =>
      ! (descendantsN t2).any (fun n2 =>
        decide (n1.type = n2.type) && decide (n1.text = n2.text)))
  | _, _ => []

/-! ## Heap model of pointer-linked nodes

getAncestors and removeNode read and write parent back-references, so they
are modelled over an explicit store: node ids are indices into a list of
per-node link records. A null pointer is Option.none; dereferencing it is a
crash, modelled as Except.error. -/

/-- Link record of one heap node: the non-owning parent back-reference and
the ordered ids of the owned children. -/
structure NodeData where
  parent : Option Nat
  children : List Nat
deriving DecidableEq, Repr

/-- The node store: index-addressed link records. -/
abbrev Heap := List NodeData

/-- Read a node record (out-of-range reads yield a detached record; the
claims only use in-range ids). -/
def getNode (h : Heap) (i : Nat) : NodeData :=
  h.getD i ⟨none, []⟩

/-- Write a node record (List.set: out-of-range writes are dropped). -/
def setNode (h : Heap) (i : Nat) (d : NodeData) : Heap :=
  h.set i d

/-- The parent-hop loop of getAncestors: follow parent references, pushing
each visited id, until a null parent. Fuel bounds the walk so the
definition is total on arbitrary heaps; on an acyclic heap any fuel of at
least the heap size is enough. -/
def chainFrom (h : Heap) : Nat → Option Nat → List Nat
  | _, none => []
  | 0, some _ => []
  | fuel + 1, some i => i :: chainFrom h fuel (getNode h i).parent

/-- PSITreeOperations::getAncestors: the source dereferences the argument
with node->getParent() before any null check, so a null argument is a
crash (Except.error), not an empty list. On a non-null node it returns the
parent chain reversed into root-to-parent order. -/
def getAncestors (h : Heap) (node : Option Nat) : Except Unit (List Nat) :=
  match node with
  | none => Except.error ()
  | some i => Except.ok (chainFrom h h.length (getNode h i).parent).reverse

/-- PSITreeOperations::removeNode: a no-op on a null node or a parentless
node. Otherwise, when keep_children is set, each child of the node has its
parent redirected to the grandparent and is appended to the grandparent
children list (in child order, one setParent then one push_back per child);
finally the first occurrence of the node is erased from the parent
children list. The parent reference of the removed node is never reset. -/
def removeNode (h : Heap) (node : Option Nat) (keep_children : Bool) : Heap :=
  match node with
  | none => h
  | some i =>
    let nd := getNode h i
    match nd.parent with
    | none => h
    | some p =>
      let h1 :=
        if keep_children then
          nd.children.foldl (fun acc c =>
            let acc1 := setNode acc c { getNode acc c with parent := some p }
            let pd := getNode acc1 p
            setNode acc1 p { pd with children := pd.children ++ [c] }) h
        else h
      let pd := getNode h1 p
      setNode h1 p { pd with children := pd.children.erase i }

/-! ## Declaration records and the stub index -/

/-- Record kind enumeration (enum class StubType). -/
inductive StubType where
  | CLASS | FUNCTION | VARIABLE | NAMESPACE | ENUM | TYPEDEF
deriving DecidableEq, Repr

/-- Kind-specific payload of a record, one constructor per StubEntry
subclass. -/
inductive StubPayload where
  | classPayload (is_struct : Bool)
  | functionPayload (return_type : String) (params : List (String × String))
  | variablePayload (var_type : String) (is_const is_static : Bool)
deriving DecidableEq, Repr

/-- A declaration record (class StubEntry): kind tag, name, location and
kind-specific payload. -/
structure StubEntry where
  type : StubType
  name : String
  location : SourceLocation
  payload : StubPayload
deriving DecidableEq, Repr

/-- is_struct flag read through the ClassStub cast in the builder; false on
a non-class payload (the source never builds such an entry for a CLASS
kind tag). -/
def StubEntry.isStructFlag (e : StubEntry) : Bool :=
  match e.payload with
  | .classPayload b => b
  | _ => false

/-- Substring check of the pattern against a candidate start of the text
(character-wise, models std::string comparison at one offset). -/
def leadMatch : List Char → List Char → Bool
  | [], _ => true
  | _ :: _, [] => false
  | a :: as, b :: bs => a == b && leadMatch as bs

/-- Scan of every suffix of the text for the pattern. -/
def subScan (pat : List Char) : List Char → Bool
  | [] => pat.isEmpty
  | c :: rest => leadMatch pat (c :: rest) || subScan pat rest

/-- std::string::find(pattern) != npos: the pattern occurs contiguously in
the text (an empty pattern always occurs). -/
def strContains (s pat : String) : Bool :=
  subScan pat.data s.data

/-- The stub index, modelled by its insertion-ordered entry list
(all_entries_). The three hash-map indexes are derivable views: a bucket
holds exactly the entries with that key, in insertion order, which is the
store invariant maintained by addEntry. -/
abbrev StubIndex := List StubEntry

/-- StubIndex::queryByName: the name bucket in insertion order. -/
def queryByName (idx : StubIndex) (name : String) : List StubEntry :=
  idx.filter (fun e => decide (e.name = name))

/-- StubIndex::queryByType: the kind bucket in insertion order. -/
def queryByType (idx : StubIndex) (ty : StubType) : List StubEntry :=
  idx.filter (fun e => decide (e.type = ty))

/-- StubIndex::queryByFile: the exact-file-path bucket in insertion
order. -/
def queryByFile (idx : StubIndex) (file_path : String) : List StubEntry :=
  idx.filter (fun e => decide (e.location.file_path = file_path))

/-- The composite query filter (struct QueryFilter); its constructor
defaults the kind field to StubType::CLASS. -/
structure QueryFilter where
  type_filter : StubType
  name_pattern : String
  file_pattern : String
deriving DecidableEq, Repr

/-- StubIndex::query, mirroring the source control flow: the name branch
and the kind branch run a loop that skips an entry (continue) when the kind
check or the file-substring check rejects it; the TYPEDEF kind disables the
kind check in the name branch, and the CLASS kind selects away from the
kind branch entirely. -/
def query (idx : StubIndex) (f : QueryFilter) : List StubEntry :=
  if f.name_pattern ≠ "" then
    (queryByName idx f.name_pattern).foldl (fun acc e =>
      if f.type_filter ≠ StubType.TYPEDEF ∧ e.type ≠ f.type_filter then acc
      else if f.file_pattern ≠ "" ∧
          ¬ strContains e.location.file_path f.file_pattern = true then acc
      else acc ++ [e]) []
  else if f.type_filter ≠ StubType.CLASS then
    (queryByType idx f.type_filter).foldl (fun acc e =>
      if f.file_pattern ≠ "" ∧
          ¬ strContains e.location.file_path f.file_pattern = true then acc
      else acc ++ [e]) []
  else if f.file_pattern ≠ "" then
    queryByFile idx f.file_pattern
  else
    idx

/-- The composite query as the specification states it: (a) a non-empty
name pattern selects the name bucket filtered by kind — unless the kind
equals the designated no-kind-filter sentinel of this branch, TYPEDEF — and
by file-path substring; (b) otherwise a kind other than the no-kind-filter
sentinel of this branch, CLASS, selects the kind bucket filtered by
file-path substring; (c) otherwise a non-empty file pattern selects the
file bucket; (d) otherwise all records in insertion order. -/
def querySpec (idx : StubIndex) (f : QueryFilter) : List StubEntry :=
  if f.name_pattern ≠ "" then
    (queryByName idx f.name_pattern).filter (fun e =>
      (decide (f.type_filter = StubType.TYPEDEF) || decide (e.type = f.type_filter))
        && strContains e.location.file_path f.file_pattern)
  else if f.type_filter ≠ StubType.CLASS then
    (queryByType idx f.type_filter).filter (fun e =>
      strContains e.location.file_path f.file_pattern)
  else if f.file_pattern ≠ "" then
    queryByFile idx f.file_pattern
  else
    idx

/-! ## Tree builder -/

/-- PSITreeBuilder::createClassNode: a PSIClassNode whose kind is STRUCT
when the is_struct flag is set and CLASS otherwise, text and stub_id
semantic entry both the record name. -/
def createClassNode (e : StubEntry) : PSINode :=
  .node (if e.isStructFlag then .STRUCT else .CLASS) e.name e.location
    [("stub_id", e.name)] .classV []

/-- PSITreeBuilder::createFunctionNode: a PSIFunctionNode with kind
FUNCTION, text and stub_id semantic entry both the record name. -/
def createFunctionNode (e : StubEntry) : PSINode :=
  .node .FUNCTION e.name e.location [("stub_id", e.name)] .functionV []

/-- PSITreeBuilder::createVariableNode: a PSIVariableNode with kind
VARIABLE, text and stub_id semantic entry both the record name. -/
def createVariableNode (e : StubEntry) : PSINode :=
  .node .VARIABLE e.name e.location [("stub_id", e.name)] .variableV []

/-- PSITreeBuilder::buildTreeFromContent, parameterised by the ordered
record list the parser yields: a File root (text the file path, location
line 1 column 1) whose children are appended by three sequential passes
over the full record list — class records, then function records, then
variable records, each pass preserving record order. Records of any other
kind are never matched and produce no child. -/
def buildTreeFromStubs (file_path : String) (stubs : List StubEntry) : PSINode :=
  .node .FILE file_path ⟨file_path, 1, 1⟩ [] .fileV
    ((stubs.filter (fun e => decide (e.type = StubType.CLASS))).map createClassNode
      ++ (stubs.filter (fun e => decide (e.type = StubType.FUNCTION))).map createFunctionNode
      ++ (stubs.filter (fun e => decide (e.type = StubType.VARIABLE))).map createVariableNode)

/-! ## Tree transformer -/

/-- Replace nothing of a node but its children list (models addChild of
each transformed child onto the mapper result). -/
def appendChildren (t : PSINode) (extra : List PSINode) : PSINode :=
  .node t.type t.text t.loc t.sem t.variant (t.children ++ extra)

mutual
/-- PSITreeTransformer::transformNode: apply the mapper to the node; a null
result prunes the node and its whole subtree (children are never visited);
otherwise the children are transformed recursively and the surviving
results appended as children of the replacement. -/
def transformNode (f : PSINode → Option PSINode) : PSINode → Option PSINode
  | .node t x l s v cs =>
    match f (.node t x l s v cs) with
    | none => none
    | some t1 => some (appendChildren t1 (transformChildren f cs))

/-- Recursive transformation of a children list, dropping pruned
children. -/
def transformChildren (f : PSINode → Option PSINode) : List PSINode → List PSINode
  | [] => []
  | c :: cs =>
    match transformNode f c with
    | none => transformChildren f cs
    | some t1 => t1 :: transformChildren f cs
end

/-- PSITreeTransformer::transformTree with the null check. -/
def transformTree (f : PSINode → Option PSINode) : Option PSINode → Option PSINode
  | none => none
  | some r => transformNode f r

/-! ## Visitor dispatch -/

/-- The five kind-specific visitor methods. -/
inductive VisitMethod where
  | vFile | vNamespace | vClass | vFunction | vVariable
deriving DecidableEq, Repr

/-- Which visitor method accept of each dynamic class dispatches to: the
five subclasses each dispatch to their kind-specific method; the base
class accept body is empty and dispatches to nothing. -/
def acceptTarget : NodeVariant → Option VisitMethod
  | .base => none
  | .fileV => some .vFile
  | .namespaceV => some .vNamespace
  | .classV => some .vClass
  | .functionV => some .vFunction
  | .variableV => some .vVariable

mutual
/-- The node sequence the default PSIVisitor reaches with visitNode:
visit(n) calls n.accept, which for a subclass node dispatches to its
kind-specific method, whose default forwards to visitNode — record the node
and visit every child — and which for a base-class node is an empty no-op,
recording nothing and visiting no child. -/
def visitSeq : PSINode → List PSINode
  | .node t x l s v cs =>
    match acceptTarget v with
    | none => []
    | some _ => .node t x l s v cs :: visitSeqList cs

/-- visitNode child loop: visit each child in order. -/
def visitSeqList : List PSINode → List PSINode
  | [] => []
  | c :: cs => visitSeq c ++ visitSeqList cs
end

mutual
/-- Check that every node of a subtree has a subclass dynamic class. -/
def allSubclass : PSINode → Bool
  | .node _ _ _ _ v cs => decide (v ≠ NodeVariant.base) && allSubclassList cs

/-- allSubclass over a children list. -/
def allSubclassList : List PSINode → Bool
  | [] => true
  | c :: cs => allSubclass c && allSubclassList cs
end

/-! ## Semantic info and tree query -/

/-- Lookup in the semantic-info bag: first binding of the key. -/
def semLookup : List (String × String) → String → Option String
  | [], _ => none
  | (k, v) :: rest, key => if k = key then some v else semLookup rest key

/-- PSINode::getSemanticInfo: the stored value, or the empty string when
the key is absent. -/
def getSemanticInfo (n : PSINode) (key : String) : String :=
  (semLookup n.sem key).getD ""

/-- PSINode::hasSemanticInfo: whether the key is present. -/
def hasSemanticInfo (n : PSINode) (key : String) : Bool :=
  (semLookup n.sem key).isSome

/-- The predicate PSITreeQuery::withSemanticInfo pushes onto the filter
list: getSemanticInfo(key) == value. -/
def withSemanticInfoFilter (key value : String) : PSINode → Bool :=
  fun n => getSemanticInfo n key == value

/-- PSITreeQuery::matchesFilters: all accumulated predicates hold. -/
def matchesFilters (filters : List (PSINode → Bool)) (n : PSINode) : Bool :=
  filters.all (fun f => f n)

/-- PSITreeQuery::execute: one pre-order traversal keeping the nodes on
which every accumulated predicate holds; empty on a null root. -/
def queryExecute (root : Option PSINode) (filters : List (PSINode → Bool)) :
    List PSINode :=
  findNodesByCondition root (matchesFilters filters)

/-- Kind-group index of a node kind in the built tree: class group (CLASS
or STRUCT kind) first, then functions, then variables. -/
def groupIdx : PSINodeType → Nat
  | .CLASS => 0
  | .STRUCT => 0
  | .FUNCTION => 1
  | .VARIABLE => 2
  | _ => 3

/-! ## Concrete sample inputs used by witnesses and counterexamples -/

/-- Single-kind leaf used as the C2 counterexample input. -/
def c2leaf : PSINode := .node .CLASS "A" ⟨"a.cpp", 1, 1⟩ [] .classV []

/-- Four-node heap for C3: node 0 is the parent P, node 1 is the node to
remove, nodes 2 and 3 are its two children. -/
def c3heap : Heap :=
  [⟨none, [1]⟩, ⟨some 0, [2, 3]⟩, ⟨some 1, []⟩, ⟨some 1, []⟩]

/-- Location shared by the C6 witness nodes. -/
def c6loc : SourceLocation := ⟨"t.cpp", 1, 1⟩

/-- Mapper for the C6 witness: prune VARIABLE nodes, rebuild the rest as
childless generic nodes. -/
def c6map : PSINode → Option PSINode := fun x =>
  if x.type = PSINodeType.VARIABLE then none
  else some (.node x.type x.text x.loc [] .base [])

/-- Variable node with one child, pruned by the C6 witness mapper. -/
def c6varNode : PSINode :=
  .node .VARIABLE "v" c6loc [] .variableV
    [.node .FUNCTION "g" c6loc [] .functionV []]

/-- Class node whose only child is the pruned variable node. -/
def c6classNode : PSINode := .node .CLASS "K" c6loc [] .classV [c6varNode]

/-- Generic base-class node (kind COMMENT) with one subclass child, for
the C7 counterexample. -/
def c7base : PSINode :=
  .node .COMMENT "note" ⟨"m.cpp", 5, 1⟩ [] .base
    [.node .FUNCTION "h" ⟨"m.cpp", 6, 1⟩ [] .functionV []]

/-- Two-level all-subclass tree for the C7 witness. -/
def c7tree : PSINode :=
  .node .FILE "m.cpp" ⟨"m.cpp", 1, 1⟩ [] .fileV
    [.node .CLASS "A" ⟨"m.cpp", 1, 1⟩ [] .classV [],
      .node .FUNCTION "g" ⟨"m.cpp", 2, 1⟩ [] .functionV []]

/-- Single FUNCTION-kind node for the C9 counterexample. -/
def c9funLeaf : PSINode := .node .FUNCTION "f" ⟨"a.cpp", 1, 1⟩ [] .functionV []

/-- Single CLASS-kind node for the C9 counterexample. -/
def c9classLeaf : PSINode := .node .CLASS "c" ⟨"b.cpp", 1, 1⟩ [] .classV []

/-- Variable node without a stub_id semantic entry, for the C10 witness. -/
def c10node : PSINode :=
  .node .VARIABLE "v" ⟨"f.cpp", 3, 1⟩ [("other", "x")] .variableV []

/-! ## Heap store lemmas -/

theorem getNode_set_self (h : Heap) (i : Nat) (d : NodeData) (hi : i < h.length) :
    getNode (setNode h i d) i = d := by
  simp [getNode, setNode, List.getD_eq_getElem?_getD, List.getElem?_set_self hi]

theorem getNode_set_ne (h : Heap) (i j : Nat) (d : NodeData) (hij : i ≠ j) :
    getNode (setNode h i d) j = getNode h j := by
  simp [getNode, setNode, List.getD_eq_getElem?_getD, List.getElem?_set_ne hij]

theorem length_setNode (h : Heap) (i : Nat) (d : NodeData) :
    (setNode h i d).length = h.length :=
  List.length_set h i d

/-! ## Claim C1 -/

/-- C1 counterexample: the claim states that every traversal, search, or
metric operation returns its empty or zero identity on a null node and
never crashes; but getTreeDepth on a null root returns 1, not 0, and
getAncestors dereferences the null node before any check — a crash,
modelled as Except.error — instead of returning an empty list. -/
theorem C1_counterexample :
    calculateDepth none = 1 ∧ getAncestors [] none = Except.error () :=
  ⟨rfl, rfl⟩

/-- C1 (amended): the search and metric operations that do check their
argument — findAllNodes, findNodesByCondition, getAllDescendants,
getSubtreeSize, getLeafNodes, getBranchNodes — return the empty list or 0
on a null root; but getTreeDepth returns 1 on a null root (its null check
shares the childless-node early return), and getAncestors performs an
unchecked dereference of a null node, which is a crash rather than any
returned value. -/
theorem C1_null_behaviour (ty : PSINodeType) (cond : PSINode → Bool) (h : Heap) :
    findAllNodes none ty = [] ∧
    findNodesByCondition none cond = [] ∧
    getAllDescendants none = [] ∧
    calculateSubtreeSize none = 0 ∧
    getLeafNodes none = [] ∧
    getBranchNodes none = [] ∧
    calculateDepth none = 1 ∧
    getAncestors h none = Except.error () :=
  ⟨rfl, rfl, rfl, rfl, rfl, rfl, rfl, rfl⟩

/-! ## Claim C2 -/

theorem subtreeSizeN_pos (n : PSINode) : 0 < subtreeSizeN n := by
  match n with
  | .node t x l s v cs => rw [subtreeSizeN]; omega

theorem intLog2_eval {q : ℚ} (e : ℤ) (h0 : 0 < q) (h1 : (2 : ℚ) ^ e ≤ q)
    (h2 : q < (2 : ℚ) ^ (e + 1)) : Int.log 2 q = e := by
  have hcast : ((2 : ℕ) : ℚ) = (2 : ℚ) := by norm_num
  have ha := (Int.zpow_le_iff_le_log (b := 2) (by norm_num) h0).mp
    (by rw [hcast]; exact h1)
  have hb2 := (Int.lt_zpow_iff_log_lt (b := 2) (by norm_num) h0).mp
    (by rw [hcast]; exact h2)
  omega

theorem rhe_intCast (n : ℤ) : roundHalfEven (n : ℚ) = n := by
  rw [roundHalfEven, Int.floor_intCast, sub_self]
  norm_num

theorem rhe_of_lt {x : ℚ} {f : ℤ} (hf : ⌊x⌋ = f) (h : x - (f : ℚ) < 1/2) :
    roundHalfEven x = f := by
  rw [roundHalfEven, hf, if_pos h]

theorem rhe_tie_odd {x : ℚ} {f : ℤ} (hf : ⌊x⌋ = f) (h : x - (f : ℚ) = 1/2)
    (hodd : f % 2 = 1) : roundHalfEven x = f + 1 := by
  rw [roundHalfEven, hf, h, if_neg (by norm_num), if_neg (by norm_num),
    if_neg (by omega)]

theorem fl_eval {q : ℚ} (e m : ℤ) (h0 : 0 < q)
    (h1 : (2 : ℚ) ^ (e + 52) ≤ q) (h2 : q < (2 : ℚ) ^ (e + 52 + 1))
    (hm : roundHalfEven (q / (2 : ℚ) ^ e) = m) :
    fl q = (m : ℚ) * (2 : ℚ) ^ e := by
  rw [fl, if_neg (ne_of_gt h0), abs_of_pos h0, intLog2_eval (e + 52) h0 h1 h2,
    if_neg (not_lt.mpr h0.le), Int.add_sub_cancel, hm, one_mul]

theorem fl_zero : fl 0 = 0 := by
  rw [fl, if_pos rfl]

theorem fl_one : fl 1 = 1 := by
  have hm : roundHalfEven ((1 : ℚ) / (2 : ℚ) ^ (-52 : ℤ)) = (2 : ℤ) ^ 52 := by
    have harg : (1 : ℚ) / (2 : ℚ) ^ (-52 : ℤ) = (((2 : ℤ) ^ 52 : ℤ) : ℚ) := by
      norm_num
    rw [harg, rhe_intCast]
  rw [fl_eval (-52) (2 ^ 52) (by norm_num) (by norm_num) (by norm_num) hm]
  norm_num

theorem fl_half : fl (1/2 : ℚ) = 1/2 := by
  have hm : roundHalfEven ((1/2 : ℚ) / (2 : ℚ) ^ (-53 : ℤ)) = (2 : ℤ) ^ 52 := by
    have harg : (1/2 : ℚ) / (2 : ℚ) ^ (-53 : ℤ) = (((2 : ℤ) ^ 52 : ℤ) : ℚ) := by
      norm_num
    rw [harg, rhe_intCast]
  rw [fl_eval (-53) (2 ^ 52) (by norm_num) (by norm_num) (by norm_num) hm]
  norm_num

theorem fl_c03 : c03 = 5404319552844595 / 18014398509481984 := by
  have hfloor : ⌊(3/10 : ℚ) / (2 : ℚ) ^ (-54 : ℤ)⌋ = 5404319552844595 := by
    rw [Int.floor_eq_iff]
    constructor <;> norm_num
  have hm : roundHalfEven ((3/10 : ℚ) / (2 : ℚ) ^ (-54 : ℤ)) = 5404319552844595 :=
    rhe_of_lt hfloor (by norm_num)
  rw [c03, fl_eval (-54) 5404319552844595 (by norm_num) (by norm_num)
    (by norm_num) hm]
  norm_num

theorem fl_s2 : fl (1/2 + c03) = 7205759403792794 / 9007199254740992 := by
  rw [fl_c03]
  have harg : (1/2 : ℚ) + 5404319552844595 / 18014398509481984 =
      14411518807585587 / 18014398509481984 := by norm_num
  rw [harg]
  have hfloor : ⌊(14411518807585587 / 18014398509481984 : ℚ) / (2 : ℚ) ^ (-53 : ℤ)⌋ =
      7205759403792793 := by
    rw [Int.floor_eq_iff]
    constructor <;> norm_num
  have hm : roundHalfEven ((14411518807585587 / 18014398509481984 : ℚ) /
      (2 : ℚ) ^ (-53 : ℤ)) = 7205759403792794 := by
    have := rhe_tie_odd hfloor (by norm_num) (by norm_num)
    norm_num at this
    convert this using 2
    norm_num
  rw [fl_eval (-53) 7205759403792794 (by norm_num) (by norm_num) (by norm_num) hm]
  norm_num

theorem fl_leafSum : fl (7205759403792794 / 9007199254740992 + 1) =
    16212958658533786 / 9007199254740992 := by
  have harg : (7205759403792794 / 9007199254740992 : ℚ) + 1 =
      16212958658533786 / 9007199254740992 := by norm_num
  rw [harg]
  have hm : roundHalfEven ((16212958658533786 / 9007199254740992 : ℚ) /
      (2 : ℚ) ^ (-52 : ℤ)) = 8106479329266893 := by
    have harg2 : (16212958658533786 / 9007199254740992 : ℚ) / (2 : ℚ) ^ (-52 : ℤ) =
        ((8106479329266893 : ℤ) : ℚ) := by norm_num
    rw [harg2, rhe_intCast]
  rw [fl_eval (-52) 8106479329266893 (by norm_num) (by norm_num) (by norm_num) hm]
  norm_num

theorem fl_two : fl (2 : ℚ) = 2 := by
  have hm : roundHalfEven ((2 : ℚ) / (2 : ℚ) ^ (-51 : ℤ)) = (2 : ℤ) ^ 52 := by
    have harg : (2 : ℚ) / (2 : ℚ) ^ (-51 : ℤ) = (((2 : ℤ) ^ 52 : ℤ) : ℚ) := by
      norm_num
    rw [harg, rhe_intCast]
  rw [fl_eval (-51) (2 ^ 52) (by norm_num) (by norm_num) (by norm_num) hm]
  norm_num

theorem fl_leafResult : fl (16212958658533786 / 9007199254740992 / 2 : ℚ) =
    8106479329266893 / 9007199254740992 := by
  have harg : (16212958658533786 / 9007199254740992 : ℚ) / 2 =
      8106479329266893 / 9007199254740992 := by norm_num
  rw [harg]
  have hm : roundHalfEven ((8106479329266893 / 9007199254740992 : ℚ) /
      (2 : ℚ) ^ (-53 : ℤ)) = 8106479329266893 := by
    have harg2 : (8106479329266893 / 9007199254740992 : ℚ) / (2 : ℚ) ^ (-53 : ℤ) =
        ((8106479329266893 : ℤ) : ℚ) := by norm_num
    rw [harg2, rhe_intCast]
  rw [fl_eval (-53) 8106479329266893 (by norm_num) (by norm_num) (by norm_num) hm]
  norm_num

/-- C2 counterexample: the claim states that calculateSimilarity(T, T) is
exactly 1.0 for any non-empty tree; but for a single-node tree the node
score accumulates in doubles to fl(0.5 + 0.3) = 0.8000000000000000444...,
the size score is exactly 1.0, and the rounded average is
0.9000000000000000222... = 8106479329266893 / 2^53, not 1.0. -/
theorem C2_counterexample :
    calculateSimilarity (some c2leaf) (some c2leaf) =
      8106479329266893 / 9007199254740992 ∧
    calculateSimilarity (some c2leaf) (some c2leaf) ≠ 1 := by
  have hnode : calcNodeSim c2leaf c2leaf = 7205759403792794 / 9007199254740992 := by
    rw [c2leaf, calcNodeSim]
    simp only [if_pos rfl, List.length_nil, Nat.min_self, if_true]
    rw [zero_add, fl_half, fl_s2]
  have h : calculateSimilarity (some c2leaf) (some c2leaf) =
      8106479329266893 / 9007199254740992 := by
    have hsize : subtreeSizeN c2leaf = 1 := rfl
    simp only [calculateSimilarity, hsize]
    rw [if_neg (by norm_num)]
    simp only [sub_self, fl_zero, abs_zero, zero_div, sub_zero, fl_one, hnode]
    rw [fl_leafSum, fl_leafResult]
  exact ⟨h, by rw [h]; norm_num⟩

/-- C2 (amended): for every non-empty tree T the size score inside
calculateSimilarity(T, T) is exactly 1.0 (the size difference is 0), so
the self-similarity is the binary64 rounding of
(recursiveNodeSimilarity(T, T) + 1.0) / 2.0 rather than always exactly
1.0: for a single-node tree the node score is fl(0.5 + 0.3), just above
0.8, and the self-similarity is 0.9000000000000000222..., not 1.0 — while
a node score of exactly 1.0 (which the rounded accumulation reaches on
deep single-child chains) passes through the final two roundings
unchanged, fl(fl(1 + 1) / 2) = 1, so such trees attain exactly 1.0. -/
theorem C2_self_similarity (T : PSINode) :
    calculateSimilarity (some T) (some T) =
      fl (fl (calcNodeSim T T + 1) / 2) ∧
    fl (fl ((1 : ℚ) + 1) / 2) = 1 := by
  constructor
  · have hpos := subtreeSizeN_pos T
    simp only [calculateSimilarity]
    rw [if_neg (by omega)]
    simp only [sub_self, fl_zero, abs_zero, zero_div, sub_zero, fl_one]
  · rw [show (1 : ℚ) + 1 = 2 by norm_num, fl_two,
      show (2 : ℚ) / 2 = 1 by norm_num, fl_one]

/-! ## Claim C3 -/

/-- C3 (amended): removing a node that has two children under a parent P
with keepChildren set leaves P without the removed node among its
children, re-parents the two children onto P (both the parent reference of
each child and membership in the children list of P), but does not reset
the parent reference of the removed node: it still points at P rather than
becoming null. -/
theorem C3_removeNode_keepChildren (h : Heap) (p i c1 c2 : Nat)
    (hbp : p < h.length) (hbc1 : c1 < h.length) (hbc2 : c2 < h.length)
    (hnode : getNode h i = ⟨some p, [c1, c2]⟩)
    (hpi : p ≠ i) (hpc1 : p ≠ c1) (hpc2 : p ≠ c2)
    (hic1 : i ≠ c1) (hic2 : i ≠ c2) (hc12 : c1 ≠ c2)
    (hcount : (getNode h p).children.count i = 1) :
    i ∉ (getNode (removeNode h (some i) true) p).children ∧
    c1 ∈ (getNode (removeNode h (some i) true) p).children ∧
    c2 ∈ (getNode (removeNode h (some i) true) p).children ∧
    (getNode (removeNode h (some i) true) c1).parent = some p ∧
    (getNode (removeNode h (some i) true) c2).parent = some p ∧
    (getNode (removeNode h (some i) true) i).parent = some p := by
  have hmem : i ∈ (getNode h p).children := by
    have := hcount
    by_contra hni
    rw [List.count_eq_zero.mpr hni] at this
    omega
  -- unfold removeNode and the two foldl steps
  simp only [removeNode, hnode, List.foldl, if_true]
  -- name the intermediate heaps
  set a1 := setNode h c1 { getNode h c1 with parent := some p } with ha1
  have hlen1 : a1.length = h.length := length_setNode ..
  have hg1p : getNode a1 p = getNode h p := getNode_set_ne _ _ _ _ (Ne.symm hpc1)
  set a2 := setNode a1 p { getNode a1 p with children := (getNode a1 p).children ++ [c1] } with ha2
  have hlen2 : a2.length = h.length := by rw [ha2, length_setNode, hlen1]
  have hg2p : getNode a2 p =
      { getNode h p with children := (getNode h p).children ++ [c1] } := by
    rw [ha2, getNode_set_self _ _ _ (by omega), hg1p]
  set a3 := setNode a2 c2 { getNode a2 c2 with parent := some p } with ha3
  have hlen3 : a3.length = h.length := by rw [ha3, length_setNode, hlen2]
  have hg3p : getNode a3 p = getNode a2 p := getNode_set_ne _ _ _ _ (Ne.symm hpc2)
  set a4 := setNode a3 p { getNode a3 p with children := (getNode a3 p).children ++ [c2] } with ha4
  have hlen4 : a4.length = h.length := by rw [ha4, length_setNode, hlen3]
  have hg4p : getNode a4 p =
      { getNode h p with
          children := ((getNode h p).children ++ [c1]) ++ [c2] } := by
    rw [ha4, getNode_set_self _ _ _ (by omega), hg3p, hg2p]
  -- the final write erases i from the children of p
  have hfinal : getNode (setNode a4 p
      { getNode a4 p with children := (getNode a4 p).children.erase i }) p =
      { getNode a4 p with children := (getNode a4 p).children.erase i } :=
    getNode_set_self _ _ _ (by omega)
  refine ⟨?_, ?_, ?_, ?_, ?_, ?_⟩
  · rw [hfinal, hg4p]
    simp only []
    rw [List.erase_append_left _ (by exact List.mem_append_left _ hmem),
      List.erase_append_left _ hmem]
    intro hcon
    rcases List.mem_append.mp hcon with hcon | hcon
    · rcases List.mem_append.mp hcon with hcon | hcon
      · have := List.count_erase_self i (getNode h p).children
        rw [hcount] at this
        exact absurd (List.count_eq_zero.mp (by omega)) (fun hn => hn hcon)
      · simp at hcon
        exact hic1 hcon
    · simp at hcon
      exact hic2 hcon
  · rw [hfinal, hg4p]
    simp only []
    rw [List.erase_append_left _ (by exact List.mem_append_left _ hmem),
      List.erase_append_left _ hmem]
    exact List.mem_append_left _ (List.mem_append_right _ (by simp))
  · rw [hfinal, hg4p]
    simp only []
    rw [List.erase_append_left _ (by exact List.mem_append_left _ hmem),
      List.erase_append_left _ hmem]
    exact List.mem_append_right _ (by simp)
  · rw [getNode_set_ne _ _ _ _ hpc1, ha4, getNode_set_ne _ _ _ _ hpc1, ha3,
      getNode_set_ne _ _ _ _ (Ne.symm hc12), ha2, getNode_set_ne _ _ _ _ hpc1,
      ha1, getNode_set_self _ _ _ hbc1]
  · rw [getNode_set_ne _ _ _ _ hpc2, ha4, getNode_set_ne _ _ _ _ hpc2, ha3,
      getNode_set_self _ _ _ (by omega)]
  · rw [getNode_set_ne _ _ _ _ hpi, ha4, getNode_set_ne _ _ _ _ hpi, ha3,
      getNode_set_ne _ _ _ _ (Ne.symm hic2), ha2, getNode_set_ne _ _ _ _ hpi, ha1,
      getNode_set_ne _ _ _ _ (Ne.symm hic1), hnode]

/-- C3 counterexample: removing node 1 (two children, parent node 0) with
keepChildren does detach it from the children list of node 0 and
re-parents children 2 and 3 onto node 0, but the parent reference of the
removed node is not reset to null: it still points at node 0, so the final
conjunct of the claim fails. -/
theorem C3_counterexample :
    1 ∉ (getNode (removeNode c3heap (some 1) true) 0).children ∧
    2 ∈ (getNode (removeNode c3heap (some 1) true) 0).children ∧
    3 ∈ (getNode (removeNode c3heap (some 1) true) 0).children ∧
    (getNode (removeNode c3heap (some 1) true) 2).parent = some 0 ∧
    (getNode (removeNode c3heap (some 1) true) 3).parent = some 0 ∧
    (getNode (removeNode c3heap (some 1) true) 1).parent ≠ none ∧
    (getNode (removeNode c3heap (some 1) true) 1).parent = some 0 := by
  decide

/-- Concrete instantiation of the amended C3 theorem on the four-node
heap. -/
theorem C3_removeNode_keepChildren_witness :
    1 ∉ (getNode (removeNode c3heap (some 1) true) 0).children ∧
    2 ∈ (getNode (removeNode c3heap (some 1) true) 0).children ∧
    3 ∈ (getNode (removeNode c3heap (some 1) true) 0).children ∧
    (getNode (removeNode c3heap (some 1) true) 2).parent = some 0 ∧
    (getNode (removeNode c3heap (some 1) true) 3).parent = some 0 ∧
    (getNode (removeNode c3heap (some 1) true) 1).parent = some 0 :=
  C3_removeNode_keepChildren c3heap 0 1 2 3 (by decide) (by decide) (by decide)
    (by decide) (by decide) (by decide) (by decide) (by decide) (by decide)
    (by decide) (by decide)

/-! ## Claim C8 -/

mutual
theorem cloneSubtreeN_size (n : PSINode) :
    subtreeSizeN (cloneSubtreeN n) = subtreeSizeN n := by
  match n with
  | .node t x l s v cs =>
    rw [cloneSubtreeN]
    rw [subtreeSizeN, subtreeSizeN, cloneSubtreeNList_size cs]

theorem cloneSubtreeNList_size (cs : List PSINode) :
    subtreeSizeNList (cloneSubtreeNList cs) = subtreeSizeNList cs := by
  match cs with
  | [] => rfl
  | c :: rest =>
    rw [cloneSubtreeNList]
    rw [subtreeSizeNList, subtreeSizeNList, cloneSubtreeN_size c,
      cloneSubtreeNList_size rest]
end

mutual
theorem cloneSubtreeN_preorderKT (n : PSINode) :
    preorderKT (cloneSubtreeN n) = preorderKT n := by
  match n with
  | .node t x l s v cs =>
    rw [cloneSubtreeN]
    rw [preorderKT, preorderKT, cloneSubtreeNList_preorderKT cs]

theorem cloneSubtreeNList_preorderKT (cs : List PSINode) :
    preorderKTList (cloneSubtreeNList cs) = preorderKTList cs := by
  match cs with
  | [] => rfl
  | c :: rest =>
    rw [cloneSubtreeNList]
    rw [preorderKTList, preorderKTList, cloneSubtreeN_preorderKT c,
      cloneSubtreeNList_preorderKT rest]
end

/-- C8 (confirmed): cloneSubtree on a non-null root yields a tree with the
same subtree size and the identical ordered pre-order sequence of
(kind, text) pairs as the original. -/
theorem C8_clone_preserves (root : PSINode) :
    cloneSubtree (some root) = some (cloneSubtreeN root) ∧
    subtreeSizeN (cloneSubtreeN root) = subtreeSizeN root ∧
    preorderKT (cloneSubtreeN root) = preorderKT root :=
  ⟨rfl, cloneSubtreeN_size root, cloneSubtreeN_preorderKT root⟩

/-! ## Claim C9 -/

/-- C9 counterexample: the sole node of the first tree has kind-text pair
(FUNCTION, f), and no node of the second tree carries an equal pair — its
only node is (CLASS, c) — so the claim predicts that findDifferences
returns that node of t1; but the source compares collectDescendants lists,
which exclude the root of either tree, and returns the empty list. -/
theorem C9_counterexample :
    findDifferences (some c9funLeaf) (some c9classLeaf) = [] ∧
    preorderNodes c9funLeaf = [c9funLeaf] ∧
    preorderKT c9funLeaf = [(PSINodeType.FUNCTION, "f")] ∧
    preorderKT c9classLeaf = [(PSINodeType.CLASS, "c")] :=
  ⟨rfl, rfl, rfl, rfl⟩

/-- C9 (amended): for non-null trees, findDifferences returns exactly
those proper descendants of t1 (the roots of both trees are excluded from
the comparison) for which no proper descendant of t2 has an equal
(kind, text) pair, independent of structural position, as an
order-preserving sublist of the descendant sequence of t1. -/
theorem C9_differences (t1 t2 a : PSINode) :
    (a ∈ findDifferences (some t1) (some t2) ↔
      a ∈ descendantsN t1 ∧
        (descendantsN t2).all
          (fun b => ! (decide (a.type = b.type) && decide (a.text = b.text))) = true) ∧
    (findDifferences (some t1) (some t2)).Sublist (descendantsN t1) := by
  constructor
  · simp only [findDifferences, List.mem_filter, List.all_eq_true, List.any_eq_true,
      Bool.not_eq_true', Bool.and_eq_true, decide_eq_true_eq, List.any_eq_false,
      Bool.not_eq_true, Bool.and_eq_false_iff, decide_eq_false_iff_not]
    constructor
    · rintro ⟨h1, h2⟩
      exact ⟨h1, fun x hx => by have := h2 x hx; tauto⟩
    · rintro ⟨h1, h2⟩
      exact ⟨h1, fun x hx => by have := h2 x hx; tauto⟩
  · simp only [findDifferences]
    exact List.filter_sublist _

/-! ## Claim C10 -/

mutual
theorem collectByCond_congr (p q : PSINode → Bool) (hpq : ∀ m, p m = q m)
    (n : PSINode) : collectByCond p n = collectByCond q n := by
  match n with
  | .node t x l s v cs =>
    rw [collectByCond, collectByCond, hpq, collectByCondList_congr p q hpq cs]

theorem collectByCondList_congr (p q : PSINode → Bool) (hpq : ∀ m, p m = q m)
    (cs : List PSINode) : collectByCondList p cs = collectByCondList q cs := by
  match cs with
  | [] => rfl
  | c :: rest =>
    rw [collectByCondList, collectByCondList, collectByCond_congr p q hpq c,
      collectByCondList_congr p q hpq rest]
end

/-- C10 (confirmed): getSemanticInfo returns the empty string for a key
absent from the semantic-info map; the withSemanticInfo(key, "") query
predicate holds on a node exactly when getSemanticInfo yields the empty
string — so a node lacking the key matches indistinguishably from a node
whose stored value is the empty string — and execute with that single
predicate is the pre-order collection under it. -/
theorem C10_semantic_default (n : PSINode) (key : String) :
    (hasSemanticInfo n key = false → getSemanticInfo n key = "") ∧
    (withSemanticInfoFilter key "" n = true ↔ getSemanticInfo n key = "") ∧
    queryExecute (some n) [withSemanticInfoFilter key ""] =
      collectByCond (withSemanticInfoFilter key "") n := by
  refine ⟨?_, ?_, ?_⟩
  · intro hn
    rw [hasSemanticInfo] at hn
    rw [getSemanticInfo]
    cases hsl : semLookup n.sem key with
    | none => rfl
    | some v => rw [hsl] at hn; simp at hn
  · rw [withSemanticInfoFilter]
    exact beq_iff_eq
  · rw [queryExecute, findNodesByCondition]
    refine collectByCond_congr _ _ ?_ n
    intro m
    simp [matchesFilters]

/-! ## Claim C4 -/

theorem groupIdx_class (e : StubEntry) : groupIdx (createClassNode e).type = 0 := by
  rw [createClassNode]
  cases e.isStructFlag <;> rfl

theorem groupIdx_fun (e : StubEntry) : groupIdx (createFunctionNode e).type = 1 := rfl

theorem groupIdx_var (e : StubEntry) : groupIdx (createVariableNode e).type = 2 := rfl

/-- C4 (confirmed): for every ordered record list, the built File root has
exactly N + M + K direct children for N class, M function and K variable
records; their kind-group sequence is exactly N class-kind entries (kind
CLASS or STRUCT), then M function-kind entries, then K variable-kind
entries; within each group the children carry the names of the matching
records in their original relative order; and every child carries the
semantic entry stub_id equal to its display text, which is its record
name. -/
theorem C4_build_grouping (fp : String) (stubs : List StubEntry) :
    (buildTreeFromStubs fp stubs).children.length =
        (stubs.filter (fun e => decide (e.type = StubType.CLASS))).length
        + (stubs.filter (fun e => decide (e.type = StubType.FUNCTION))).length
        + (stubs.filter (fun e => decide (e.type = StubType.VARIABLE))).length ∧
    (buildTreeFromStubs fp stubs).children.map (fun c => groupIdx c.type) =
        List.replicate (stubs.filter (fun e => decide (e.type = StubType.CLASS))).length 0
        ++ List.replicate (stubs.filter (fun e => decide (e.type = StubType.FUNCTION))).length 1
        ++ List.replicate (stubs.filter (fun e => decide (e.type = StubType.VARIABLE))).length 2 ∧
    ((buildTreeFromStubs fp stubs).children.filter
        (fun c => decide (groupIdx c.type = 0))).map PSINode.text =
      (stubs.filter (fun e => decide (e.type = StubType.CLASS))).map StubEntry.name ∧
    ((buildTreeFromStubs fp stubs).children.filter
        (fun c => decide (groupIdx c.type = 1))).map PSINode.text =
      (stubs.filter (fun e => decide (e.type = StubType.FUNCTION))).map StubEntry.name ∧
    ((buildTreeFromStubs fp stubs).children.filter
        (fun c => decide (groupIdx c.type = 2))).map PSINode.text =
      (stubs.filter (fun e => decide (e.type = StubType.VARIABLE))).map StubEntry.name ∧
    (buildTreeFromStubs fp stubs).children.all
        (fun c => getSemanticInfo c "stub_id" == c.text) = true := by
  have hch : (buildTreeFromStubs fp stubs).children
      = (stubs.filter (fun e => decide (e.type = StubType.CLASS))).map createClassNode
        ++ (stubs.filter (fun e => decide (e.type = StubType.FUNCTION))).map createFunctionNode
        ++ (stubs.filter (fun e => decide (e.type = StubType.VARIABLE))).map createVariableNode := rfl
  have hgA : ((fun c => groupIdx c.type) ∘ createClassNode) = fun _ : StubEntry => 0 :=
    funext fun e => groupIdx_class e
  have hgB : ((fun c => groupIdx c.type) ∘ createFunctionNode) = fun _ : StubEntry => 1 :=
    funext fun e => groupIdx_fun e
  have hgC : ((fun c => groupIdx c.type) ∘ createVariableNode) = fun _ : StubEntry => 2 :=
    funext fun e => groupIdx_var e
  have fA0 : ((stubs.filter (fun e => decide (e.type = StubType.CLASS))).map
      createClassNode).filter (fun c => decide (groupIdx c.type = 0)) =
      (stubs.filter (fun e => decide (e.type = StubType.CLASS))).map createClassNode := by
    rw [List.filter_eq_self]
    intro a ha
    rcases List.mem_map.mp ha with ⟨e, _, rfl⟩
    simp [groupIdx_class e]
  have fB0 : ((stubs.filter (fun e => decide (e.type = StubType.FUNCTION))).map
      createFunctionNode).filter (fun c => decide (groupIdx c.type = 0)) = [] := by
    rw [List.filter_eq_nil_iff]
    intro a ha
    rcases List.mem_map.mp ha with ⟨e, _, rfl⟩
    simp [groupIdx_fun e]
  have fC0 : ((stubs.filter (fun e => decide (e.type = StubType.VARIABLE))).map
      createVariableNode).filter (fun c => decide (groupIdx c.type = 0)) = [] := by
    rw [List.filter_eq_nil_iff]
    intro a ha
    rcases List.mem_map.mp ha with ⟨e, _, rfl⟩
    simp [groupIdx_var e]
  have fA1 : ((stubs.filter (fun e => decide (e.type = StubType.CLASS))).map
      createClassNode).filter (fun c => decide (groupIdx c.type = 1)) = [] := by
    rw [List.filter_eq_nil_iff]
    intro a ha
    rcases List.mem_map.mp ha with ⟨e, _, rfl⟩
    simp [groupIdx_class e]
  have fB1 : ((stubs.filter (fun e => decide (e.type = StubType.FUNCTION))).map
      createFunctionNode).filter (fun c => decide (groupIdx c.type = 1)) =
      (stubs.filter (fun e => decide (e.type = StubType.FUNCTION))).map createFunctionNode := by
    rw [List.filter_eq_self]
    intro a ha
    rcases List.mem_map.mp ha with ⟨e, _, rfl⟩
    simp [groupIdx_fun e]
  have fC1 : ((stubs.filter (fun e => decide (e.type = StubType.VARIABLE))).map
      createVariableNode).filter (fun c => decide (groupIdx c.type = 1)) = [] := by
    rw [List.filter_eq_nil_iff]
    intro a ha
    rcases List.mem_map.mp ha with ⟨e, _, rfl⟩
    simp [groupIdx_var e]
  have fA2 : ((stubs.filter (fun e => decide (e.type = StubType.CLASS))).map
      createClassNode).filter (fun c => decide (groupIdx c.type = 2)) = [] := by
    rw [List.filter_eq_nil_iff]
    intro a ha
    rcases List.mem_map.mp ha with ⟨e, _, rfl⟩
    simp [groupIdx_class e]
  have fB2 : ((stubs.filter (fun e => decide (e.type = StubType.FUNCTION))).map
      createFunctionNode).filter (fun c => decide (groupIdx c.type = 2)) = [] := by
    rw [List.filter_eq_nil_iff]
    intro a ha
    rcases List.mem_map.mp ha with ⟨e, _, rfl⟩
    simp [groupIdx_fun e]
  have fC2 : ((stubs.filter (fun e => decide (e.type = StubType.VARIABLE))).map
      createVariableNode).filter (fun c => decide (groupIdx c.type = 2)) =
      (stubs.filter (fun e => decide (e.type = StubType.VARIABLE))).map createVariableNode := by
    rw [List.filter_eq_self]
    intro a ha
    rcases List.mem_map.mp ha with ⟨e, _, rfl⟩
    simp [groupIdx_var e]
  refine ⟨?_, ?_, ?_, ?_, ?_, ?_⟩
  · rw [hch]
    simp only [List.length_append, List.length_map]
  · rw [hch, List.map_append, List.map_append, List.map_map, List.map_map,
      List.map_map, hgA, hgB, hgC, List.map_const', List.map_const',
      List.map_const']
  · rw [hch, List.filter_append, List.filter_append, fA0, fB0, fC0,
      List.append_nil, List.append_nil, List.map_map]
    rfl
  · rw [hch, List.filter_append, List.filter_append, fA1, fB1, fC1,
      List.append_nil, List.nil_append, List.map_map]
    rfl
  · rw [hch, List.filter_append, List.filter_append, fA2, fB2, fC2,
      List.nil_append, List.nil_append, List.map_map]
    rfl
  · rw [hch, List.all_eq_true]
    intro x hx
    rcases List.mem_append.mp hx with hx | hx
    · rcases List.mem_append.mp hx with hx | hx
      · rcases List.mem_map.mp hx with ⟨e, _, rfl⟩
        simp [createClassNode, getSemanticInfo, semLookup, PSINode.sem, PSINode.text]
      · rcases List.mem_map.mp hx with ⟨e, _, rfl⟩
        simp [createFunctionNode, getSemanticInfo, semLookup, PSINode.sem, PSINode.text]
    · rcases List.mem_map.mp hx with ⟨e, _, rfl⟩
      simp [createVariableNode, getSemanticInfo, semLookup, PSINode.sem, PSINode.text]

/-! ## Claim C5 -/

theorem subScan_nil (l : List Char) : subScan [] l = true := by
  induction l with
  | nil => rfl
  | cons c rest ih => rw [subScan]; simp [leadMatch]

theorem strContains_empty (s : String) : strContains s "" = true :=
  subScan_nil s.data

theorem loopA_eq (tf : StubType) (fpat : String) (l acc : List StubEntry) :
    l.foldl (fun acc e =>
      if tf ≠ StubType.TYPEDEF ∧ e.type ≠ tf then acc
      else if fpat ≠ "" ∧ ¬ strContains e.location.file_path fpat = true then acc
      else acc ++ [e]) acc
    = acc ++ l.filter (fun e =>
        (decide (tf = StubType.TYPEDEF) || decide (e.type = tf))
          && strContains e.location.file_path fpat) := by
  induction l generalizing acc with
  | nil => simp
  | cons e rest ih =>
    rw [List.foldl_cons, List.filter_cons]
    by_cases h1 : tf = StubType.TYPEDEF <;> by_cases h2 : e.type = tf <;>
      by_cases h4 : strContains e.location.file_path fpat = true <;>
      by_cases h3 : fpat = "" <;>
      simp_all [ih, strContains_empty, List.append_assoc]

theorem loopB_eq (fpat : String) (l acc : List StubEntry) :
    l.foldl (fun acc e =>
      if fpat ≠ "" ∧ ¬ strContains e.location.file_path fpat = true then acc
      else acc ++ [e]) acc
    = acc ++ l.filter (fun e => strContains e.location.file_path fpat) := by
  induction l generalizing acc with
  | nil => simp
  | cons e rest ih =>
    rw [List.foldl_cons, List.filter_cons]
    by_cases h4 : strContains e.location.file_path fpat = true <;>
      by_cases h3 : fpat = "" <;>
      simp_all [ih, strContains_empty, List.append_assoc]

/-- C5 (confirmed): the composite query follows the stated precedence —
(a) a non-empty name pattern selects the name bucket, kind-filtered unless
the kind equals the no-kind-filter sentinel of that branch (TYPEDEF) and
file-substring-filtered; (b) otherwise a kind other than the sentinel of
the kind branch (CLASS) selects the kind bucket, file-substring-filtered;
(c) otherwise a non-empty file pattern selects the file bucket; (d)
otherwise every record in insertion order. -/
theorem C5_query_precedence (idx : StubIndex) (f : QueryFilter) :
    query idx f = querySpec idx f := by
  rw [query, querySpec]
  by_cases hn : f.name_pattern ≠ ""
  · rw [if_pos hn, if_pos hn, loopA_eq, List.nil_append]
  · rw [if_neg hn, if_neg hn]
    by_cases ht : f.type_filter ≠ StubType.CLASS
    · rw [if_pos ht, if_pos ht, loopB_eq, List.nil_append]
    · rw [if_neg ht, if_neg ht]

/-! ## Claim C6 -/

theorem transformChildren_eq_filterMap (f : PSINode → Option PSINode)
    (cs : List PSINode) :
    transformChildren f cs = cs.filterMap (transformNode f) := by
  induction cs with
  | nil => rfl
  | cons c rest ih =>
    rw [transformChildren]
    cases h : transformNode f c with
    | none => rw [List.filterMap_cons, h, ih]
    | some t1 => rw [List.filterMap_cons, h, ih]

/-- C6 (confirmed): when the mapper returns no replacement for a node,
transformNode prunes the node together with its entire subtree — the
children are never visited and nothing of the subtree reaches the output;
when the mapper returns a replacement, the children are transformed
recursively and exactly the non-pruned results are attached to the
replacement, in order. -/
theorem C6_transform (f : PSINode → Option PSINode) (n t1 : PSINode) :
    (f n = none → transformNode f n = none) ∧
    (f n = some t1 →
      transformNode f n =
        some (appendChildren t1 (n.children.filterMap (transformNode f)))) := by
  match n with
  | .node t x l s v cs =>
    constructor
    · intro h
      rw [transformNode, h]
    · intro h
      rw [transformNode, h, transformChildren_eq_filterMap]
      rfl

/-- Concrete instantiation of C6: the mapper prunes the variable node with
its child entirely, and the surviving class replacement keeps no
children. -/
theorem C6_transform_witness :
    transformNode c6map c6varNode = none ∧
    transformNode c6map c6classNode =
      some (.node .CLASS "K" c6loc [] .base []) :=
  ⟨(C6_transform c6map c6varNode c6varNode).1 rfl,
    (C6_transform c6map c6classNode (.node .CLASS "K" c6loc [] .base [])).2 rfl⟩

/-! ## Claim C7 -/

mutual
theorem visitSeq_eq_preorder (n : PSINode) (hn : allSubclass n = true) :
    visitSeq n = preorderNodes n := by
  match n with
  | .node t x l s v cs =>
    rw [allSubclass, Bool.and_eq_true, decide_eq_true_eq] at hn
    obtain ⟨hv, hcs⟩ := hn
    have hrec := visitSeqList_eq_preorder cs hcs
    cases v
    case base => exact absurd rfl hv
    all_goals simp only [visitSeq, acceptTarget, preorderNodes]
    all_goals rw [hrec]

theorem visitSeqList_eq_preorder (cs : List PSINode)
    (hcs : allSubclassList cs = true) :
    visitSeqList cs = preorderNodesList cs := by
  match cs with
  | [] => rfl
  | c :: rest =>
    rw [allSubclassList, Bool.and_eq_true] at hcs
    rw [visitSeqList, preorderNodesList, visitSeq_eq_preorder c hcs.1,
      visitSeqList_eq_preorder rest hcs.2]
end

/-- C7 counterexample: the claim states that the generic
recurse-into-children fallback applies to every variant not specially
handled; but the accept body of the base class is empty, so visiting a
base-class node dispatches to no visitor method at all: the node with its
one child produces an empty visit sequence instead of recursing into the
child. -/
theorem C7_counterexample :
    acceptTarget NodeVariant.base = none ∧
    c7base.children.length = 1 ∧
    visitSeq c7base = [] :=
  ⟨rfl, rfl, rfl⟩

/-- C7 (amended): visit(node) dispatches through accept to the
kind-specific visitor method for each of the five subclass variants, and
each kind-specific method defaults to the generic visitNode, which records
the node and recurses into all of its children — so on a tree whose nodes
are all subclass instances the default visitor performs a full pre-order
traversal; but a node of the generic base class dispatches to nothing
(its accept body is empty), so neither it nor its children are visited:
the recurse-into-children fallback does not extend to the unhandled base
variant. -/
theorem C7_dispatch (n : PSINode) :
    acceptTarget NodeVariant.base = none ∧
    (n.variant = NodeVariant.base → visitSeq n = []) ∧
    (n.variant ≠ NodeVariant.base → visitSeq n = n :: visitSeqList n.children) ∧
    (allSubclass n = true → visitSeq n = preorderNodes n) := by
  match n with
  | .node t x l s v cs =>
    refine ⟨rfl, ?_, ?_, fun hs => visitSeq_eq_preorder _ hs⟩
    · intro hv
      rw [PSINode.variant] at hv
      subst hv
      rfl
    · intro hv
      rw [PSINode.variant] at hv
      cases v
      case base => exact absurd rfl hv
      all_goals rfl

/-- Concrete instantiation of C7: on an all-subclass tree the default
visitor visits exactly the pre-order node sequence. -/
theorem C7_dispatch_witness : visitSeq c7tree = preorderNodes c7tree :=
  (C7_dispatch c7tree).2.2.2 rfl

/-- Concrete instantiation of C10: the node lacks the stub_id key, so
getSemanticInfo yields the empty string and the withSemanticInfo
predicate with the empty value matches the node. -/
theorem C10_semantic_default_witness :
    getSemanticInfo c10node "stub_id" = "" ∧
    withSemanticInfoFilter "stub_id" "" c10node = true :=
  ⟨(C10_semantic_default c10node "stub_id").1 (by decide),
    ((C10_semantic_default c10node "stub_id").2.1).mpr
      ((C10_semantic_default c10node "stub_id").1 (by decide))⟩

end StubIndexModel
